import Mathlib

/-!
# cgo-static: the bridge around `compressData` and its verification driver

A shallow embedding of `assets/code/cgo-static/importer.go` (`DoCompress`) and
`assets/code/cgo-static/main.go` (`main`).

* A Go `[]byte` and a Go `string` are lists of bytes.
* The foreign routine `compressData` (C, linked from `libcompressor`) is a parameter of
  `DoCompress`: a function from the buffer it is handed to the record it returns.
* `defer` is explicit: a `Frame` keeps the operations on foreign memory performed so far and
  the deferred calls, which run last-registered-first when the function is left, by `return`
  or by a panic.
* A Go panic is the `error` side of `Except`.
-/

namespace CgoStatic

/-- One byte of a Go `[]byte` or of a C `char` buffer. -/
abbrev Byte := UInt8

/-- The value a Go panic carries. -/
inductive PanicValue
  /-- Raised by the program: `panic("...")` with a string. -/
  | str (msg : String)
  /-- Raised by the Go runtime (a `runtime.Error`). -/
  | runtimeError (msg : String)
  deriving DecidableEq, Repr

/-- Modelled from the spec: the record `compressData` returns a pointer to, whose declaration
(`compressor.h`) is not among the sources: `{ output: byte buffer pointer, length: unsigned
size, errorCode: integer }`. `output` is given by the foreign memory it addresses (`output i`
is the byte at offset `i`), `length` is an unsigned C integer, `errorCode` a C `int`. -/
structure ForeignCallResult where
  output : Nat → Byte
  length : Nat
  errorCode : Int

/-- The three foreign pointers `DoCompress` handles. -/
inductive Ptr
  /-- Result of `C.CBytes(payload)`. -/
  | payloadPtr
  /-- Result of `C.compressData(...)`: the address of the record. -/
  | resultPtr
  /-- The field `resultPtr.output`. -/
  | output
  deriving DecidableEq, Repr

/-- Operations on foreign memory, in the order they happen. -/
inductive Event
  /-- `C.CBytes`: a C allocation of `n` bytes, filled from the Go slice. -/
  | CBytes (n : Nat)
  /-- The call of `C.compressData` on the buffer `buf`, from entry to return. -/
  | compressData (buf : List Byte)
  /-- `C.GoBytes`: `n` bytes copied from `output` into a new Go slice. -/
  | GoBytes (n : Nat)
  /-- `C.free` of a pointer. -/
  | free (p : Ptr)
  deriving DecidableEq, Repr

/-- An activation of a Go function: what it has done so far, and its deferred calls, the most
recently registered first. -/
structure Frame where
  done : List Event
  deferred : List Event

/-- What is left of an activation once it is over: all it did and how it ended. -/
structure Run (α : Type) where
  events : List Event
  result : Except PanicValue α

/-- A fresh activation. -/
def Frame.enter : Frame := ⟨[], []⟩

/-- The function performs `e`. -/
def Frame.step (f : Frame) (e : Event) : Frame := { f with done := f.done ++ [e] }

/-- The statement `defer e`. -/
def Frame.defer (f : Frame) (e : Event) : Frame := { f with deferred := e :: f.deferred }

/-- The function is left with `r`, a returned value or a panic: the deferred calls run first,
in reverse order of registration. -/
def Frame.leave {α : Type} (f : Frame) (r : Except PanicValue α) : Run α :=
  ⟨f.done ++ f.deferred, r⟩

/-- `C.CBytes(b)`: a C array of `len(b)` bytes holding a copy of `b`. Nothing is appended
(it is `C.CString` that writes a terminating zero byte). -/
def CBytes (b : List Byte) : List Byte := b

/-- The conversion `C.int(x)` of an unsigned C integer: the low 32 bits, read as a signed
two's-complement number. -/
def C_int (x : Nat) : Int :=
  if x % 2 ^ 32 < 2 ^ 31 then (x % 2 ^ 32 : Nat) else (x % 2 ^ 32 : Nat) - 2 ^ 32

/-- `C.GoBytes(p, n)`: a new Go slice with the `n` bytes at `p`; the runtime panics when `n`
is negative. -/
def GoBytes (p : Nat → Byte) (n : Int) : Except PanicValue (List Byte) :=
  if n < 0 then .error (.runtimeError "gobytes: length out of range")
  else .ok ((List.range n.toNat).map p)

/-- The message of the panic in `DoCompress`. -/
def compressionFailed : String := "Ooh no, zlib compression failed!"

/-- `DoCompress` of importer.go, together with its operations on foreign memory. -/
def DoCompressRun (compressData : List Byte → ForeignCallResult) (payload : List Byte) :
    Run (List Byte) :=
  let payloadPtr := CBytes payload
  let f := (Frame.enter.step (.CBytes payloadPtr.length)).defer (.free .payloadPtr)
  let resultPtr := compressData payloadPtr
  let f := (f.step (.compressData payloadPtr)).defer (.free .resultPtr)
  if resultPtr.errorCode ≠ 0 then
    f.leave (.error (.str compressionFailed))
  else
    -- TODO of the source: check that resultPtr.length can be cast to int
    match GoBytes resultPtr.output (C_int resultPtr.length) with
    | .error e => f.leave (.error e)
    | .ok b => (f.step (.GoBytes b.length)).leave (.ok b)

/-- `DoCompress` of importer.go: what its caller gets. -/
def DoCompress (compressData : List Byte → ForeignCallResult) (payload : List Byte) :
    Except PanicValue (List Byte) :=
  (DoCompressRun compressData payload).result

/-- A Go string literal: its UTF-8 bytes. -/
def goString (s : String) : List Byte := s.toUTF8.data.toList

/-- The sample input of main.go. -/
def inputString : List Byte :=
  goString "You talkin' to me? You talkin' to me? Well I don't see anyone else here..."

/-- The message of the panic in `main` when `zlib.NewReader` returns an error. -/
def newReaderFailed : String := "Ohh no, zlib wasn't able to open a NewReader!"

/-- The message of the panic in `main` when the two strings differ. -/
def stringsDiffer : String := "Ohh no, compressed and decompressed strings differ!"

/-- The line `main` prints before it returns. -/
def confirmation : String := "Huraay, the compressed and decompressed strings are identical!\n"

/-- What the decompressor of `compress/zlib` does on one compressed input: the error of
`zlib.NewReader`, and for an opened reader the bytes `io.Copy` moves into the destination
buffer, the error `io.Copy` returns and the error `Close` returns. -/
structure ZlibRun where
  newReaderErr : Option String
  copied : List Byte
  copyErr : Option String
  closeErr : Option String

/-- `io.Copy(&decompressedBuffer, r)`: what the destination buffer holds afterwards, and the
error returned. -/
def ioCopy (r : ZlibRun) : List Byte × Option String := (r.copied, r.copyErr)

/-- `r.Close()`: the error returned. -/
def Close (r : ZlibRun) : Option String := r.closeErr

/-- How the process of `main` ends: what it wrote to standard output, and the panic that
killed it, if any. -/
structure Exit where
  stdout : String
  panic : Option PanicValue
  deriving DecidableEq, Repr

/-- `main` of main.go, for a foreign routine and a decompressor. -/
def main (compressData : List Byte → ForeignCallResult) (zlib : List Byte → ZlibRun) : Exit :=
  match DoCompress compressData inputString with
  | .error p => ⟨"", some p⟩
  | .ok compressedBytes =>
    let r := zlib compressedBytes
    match r.newReaderErr with
    | some _ => ⟨"", some (.str newReaderFailed)⟩
    | none =>
      -- `io.Copy(&decompressedBuffer, r)` and `r.Close()` are statements of their own: the
      -- error of `ioCopy r` and the value of `Close r` are not looked at
      let decompressedBuffer := (ioCopy r).1
      if inputString ≠ decompressedBuffer then ⟨"", some (.str stringsDiffer)⟩
      else ⟨confirmation, none⟩

/-- A foreign buffer with the bytes of `bs` at its start and zero bytes behind them. -/
def bufferOf (bs : List Byte) : Nat → Byte := fun i => bs.getD i 0

/-- A compression codec, library code on both sides of the boundary: `deflate` is what zlib
does for the foreign routine, `inflate` what the reader of `compress/zlib` delivers (`none`
when it reports an error). -/
structure Codec where
  deflate : List Byte → List Byte
  inflate : List Byte → Option (List Byte)

/-- Modelled from the spec: the Native Compressor Shim `compressData`, whose source
(`compressor.c`) is not among the sources: "given a null-terminated input buffer, it returns
a result record containing an output buffer pointer, its length, and an integer error code".
It reads its input from the start of `buf` up to the first zero byte; `beyond` is what the C
heap holds behind `buf`, where the read continues when `buf` holds no zero byte. -/
def shimCompressData (deflate : List Byte → List Byte) (beyond : List Byte)
    (buf : List Byte) : ForeignCallResult :=
  let input := (buf ++ beyond).takeWhile (· ≠ 0)
  let out := deflate input
  { output := bufferOf out, length := out.length, errorCode := 0 }

/-- Compress `p` through `DoCompress` and the shim, then decompress the result. -/
def roundTrip (c : Codec) (beyond : List Byte) (p : List Byte) : Option (List Byte) :=
  match DoCompress (shimCompressData c.deflate beyond) p with
  | .error _ => none
  | .ok compressedBytes => c.inflate compressedBytes

/-- The codec that stores its input unchanged. -/
def storedCodec : Codec := ⟨fun x => x, fun y => some y⟩

/-- A foreign routine that ignores its input and returns the given record. -/
def returning (r : ForeignCallResult) : List Byte → ForeignCallResult := fun _ => r

/-! ## Small checks of the embedding -/

example : C_int 5 = 5 := by decide
example : C_int (2 ^ 31 - 1) = 2 ^ 31 - 1 := by decide
example : C_int (2 ^ 31) = -2 ^ 31 := by decide
example : C_int (2 ^ 32 + 3) = 3 := by decide
example : inputString.length = 74 := by decide
example : (DoCompressRun (returning ⟨bufferOf [1, 2, 3], 2, 0⟩) [7]).events =
    [.CBytes 1, .compressData [7], .GoBytes 2, .free .resultPtr, .free .payloadPtr] := by decide
example : DoCompress (returning ⟨bufferOf [1, 2, 3], 2, 0⟩) [7] = .ok [1, 2] := by rfl
example : DoCompress (returning ⟨bufferOf [1, 2, 3], 2, 5⟩) [7] =
    .error (.str compressionFailed) := by rfl
set_option maxRecDepth 8000 in
example : roundTrip storedCodec [0] inputString = some inputString := by rfl
set_option maxRecDepth 8000 in
example : (main (shimCompressData storedCodec.deflate [0])
    (fun c => ⟨none, c, none, none⟩)) = ⟨confirmation, none⟩ := by rfl

/-! ## The three ways `DoCompress` is left -/

/-- What `DoCompress` does before it looks at the record, followed by its deferred calls. -/
theorem DoCompressRun_of_errorCode (compressData : List Byte → ForeignCallResult)
    (payload : List Byte) (h : (compressData (CBytes payload)).errorCode ≠ 0) :
    DoCompressRun compressData payload =
      ⟨[.CBytes payload.length, .compressData payload, .free .resultPtr, .free .payloadPtr],
        .error (.str compressionFailed)⟩ := by
  simp only [CBytes] at h
  simp [DoCompressRun, h, Frame.leave, Frame.step, Frame.defer, Frame.enter, CBytes]

/-- The record reports success and its length converts to a negative `C.int`. -/
theorem DoCompressRun_of_negative (compressData : List Byte → ForeignCallResult)
    (payload : List Byte) (h : (compressData (CBytes payload)).errorCode = 0)
    (hn : C_int (compressData (CBytes payload)).length < 0) :
    DoCompressRun compressData payload =
      ⟨[.CBytes payload.length, .compressData payload, .free .resultPtr, .free .payloadPtr],
        .error (.runtimeError "gobytes: length out of range")⟩ := by
  simp only [CBytes] at h hn
  simp [DoCompressRun, h, hn, GoBytes, Frame.leave, Frame.step, Frame.defer, Frame.enter,
    CBytes]

/-- The record reports success and its length converts to a `C.int` that is not negative. -/
theorem DoCompressRun_of_copy (compressData : List Byte → ForeignCallResult)
    (payload : List Byte) (h : (compressData (CBytes payload)).errorCode = 0)
    (hn : 0 ≤ C_int (compressData (CBytes payload)).length) :
    DoCompressRun compressData payload =
      ⟨[.CBytes payload.length, .compressData payload,
          .GoBytes (C_int (compressData (CBytes payload)).length).toNat,
          .free .resultPtr, .free .payloadPtr],
        .ok ((List.range (C_int (compressData (CBytes payload)).length).toNat).map
          (compressData (CBytes payload)).output)⟩ := by
  have hn2 : ¬ C_int (compressData (CBytes payload)).length < 0 := by omega
  simp only [CBytes] at h hn2
  simp [DoCompressRun, h, hn2, GoBytes, Frame.leave, Frame.step, Frame.defer, Frame.enter,
    CBytes]

/-- A length that fits a signed 32-bit integer is unchanged by the conversion. -/
theorem C_int_of_fits (x : Nat) (h : x ≤ 2 ^ 31 - 1) : C_int x = x := by
  unfold C_int
  have h1 : x % 2 ^ 32 = x := Nat.mod_eq_of_lt (by omega)
  rw [h1]
  simp
  omega

/-- Reading back the start of a buffer made from `bs` gives `bs`. -/
theorem map_bufferOf_range (bs : List Byte) :
    (List.range bs.length).map (bufferOf bs) = bs := by
  apply List.ext_getElem
  · simp
  · intro i h1 h2
    simp [bufferOf, List.getD, List.getElem?_eq_getElem h2]

/-- A read that stops at the first zero byte crosses a zero-free list entirely and stops at
the zero byte behind it. -/
theorem takeWhile_ne_zero_append (l rest : List Byte) (h : (0 : Byte) ∉ l) :
    (l ++ 0 :: rest).takeWhile (· ≠ 0) = l := by
  induction l with
  | nil => simp
  | cons a t ih =>
    have ha : a ≠ 0 := fun e => h (by simp [e])
    have ht : (0 : Byte) ∉ t := fun e => h (by simp [e])
    rw [List.cons_append, List.takeWhile_cons]
    simpa [ha] using ih ht

/-! ## The bridge layer: `DoCompress` -/

/-- **C1** For every payload and every record the foreign call hands back: when `errorCode`
is not zero, whatever `output` and `length` hold, `DoCompress` panics with the
compression-failure message and returns no byte sequence; when `errorCode` is zero it does
not panic with that message. -/
theorem DoCompress_panics_on_errorCode (compressData : List Byte → ForeignCallResult)
    (payload : List Byte) :
    ((compressData (CBytes payload)).errorCode ≠ 0 →
      DoCompress compressData payload = .error (.str compressionFailed) ∧
      ∀ b, DoCompress compressData payload ≠ .ok b) ∧
    ((compressData (CBytes payload)).errorCode = 0 →
      DoCompress compressData payload ≠ .error (.str compressionFailed)) := by
  constructor
  · intro h
    simp [DoCompress, DoCompressRun_of_errorCode compressData payload h]
  · intro h
    by_cases hn : C_int (compressData (CBytes payload)).length < 0
    · simp [DoCompress, DoCompressRun_of_negative compressData payload h hn]
    · simp [DoCompress, DoCompressRun_of_copy compressData payload h (by omega)]

/-- The statement of C1 at two records, one with `errorCode = 7` and one with
`errorCode = 0`. -/
theorem DoCompress_panics_on_errorCode_witness :
    (DoCompress (returning ⟨bufferOf [1, 2], 2, 7⟩) [97] = .error (.str compressionFailed) ∧
      ∀ b, DoCompress (returning ⟨bufferOf [1, 2], 2, 7⟩) [97] ≠ .ok b) ∧
    DoCompress (returning ⟨bufferOf [1, 2], 2, 0⟩) [97] ≠ .error (.str compressionFailed) :=
  ⟨(DoCompress_panics_on_errorCode (returning ⟨bufferOf [1, 2], 2, 7⟩) [97]).1 (by decide),
    (DoCompress_panics_on_errorCode (returning ⟨bufferOf [1, 2], 2, 0⟩) [97]).2 (by decide)⟩

/-- **C2** For every record with `errorCode = 0` and `length ≤ 2^31 - 1`, `DoCompress`
returns a byte sequence of exactly `length` bytes whose byte at each position `i < length`
is the byte at offset `i` of the record's `output` buffer. -/
theorem DoCompress_copies_length_bytes (compressData : List Byte → ForeignCallResult)
    (payload : List Byte) (h0 : (compressData (CBytes payload)).errorCode = 0)
    (hfit : (compressData (CBytes payload)).length ≤ 2 ^ 31 - 1) :
    ∃ b, DoCompress compressData payload = .ok b ∧
      b.length = (compressData (CBytes payload)).length ∧
      ∀ i, i < (compressData (CBytes payload)).length →
        b[i]? = some ((compressData (CBytes payload)).output i) := by
  have hc := C_int_of_fits _ hfit
  have hn : 0 ≤ C_int (compressData (CBytes payload)).length := by rw [hc]; omega
  refine ⟨(List.range (C_int (compressData (CBytes payload)).length).toNat).map
    (compressData (CBytes payload)).output, ?_, ?_, ?_⟩
  · simp only [DoCompress, DoCompressRun_of_copy compressData payload h0 hn]
  · simp [hc]
  · intro i hi
    simp [hc, List.getElem?_range hi]

/-- The statement of C2 at a record of length 3 over a buffer of five bytes. -/
theorem DoCompress_copies_length_bytes_witness :
    ∃ b, DoCompress (returning ⟨bufferOf [9, 8, 7, 6, 5], 3, 0⟩) [97] = .ok b ∧
      b.length = 3 ∧ ∀ i, i < 3 → b[i]? = some (bufferOf [9, 8, 7, 6, 5] i) :=
  DoCompress_copies_length_bytes (returning ⟨bufferOf [9, 8, 7, 6, 5], 3, 0⟩) [97]
    (by decide) (by decide)

/-- **C3** at a failing input: the record reports success and a length of `2^32 + 3`, which
no 32-bit integer holds; `DoCompress` does not fail, it returns three bytes. -/
theorem DoCompress_truncates_length :
    DoCompress (returning ⟨bufferOf [10, 20, 30, 40, 50], 2 ^ 32 + 3, 0⟩) [97] =
      .ok [10, 20, 30] := by
  rfl

/-- **C4** at a failing input: for the payload `ab` the C allocation has two bytes and the
buffer the foreign routine is called on is `ab` itself, without a zero byte behind it. -/
theorem DoCompress_passes_unterminated_buffer :
    (DoCompressRun (returning ⟨bufferOf [1, 2], 2, 0⟩) [97, 98]).events =
      [.CBytes 2, .compressData [97, 98], .GoBytes 2, .free .resultPtr, .free .payloadPtr] ∧
    CBytes [97, 98] ≠ [97, 98] ++ [0] ∧ (0 : Byte) ∉ CBytes [97, 98] := by
  decide

/-- On every way out, the buffer the foreign routine was called on is the payload itself,
byte for byte: as long as the payload and never one byte longer. -/
theorem DoCompressRun_calls_on_payload (compressData : List Byte → ForeignCallResult)
    (payload buf : List Byte)
    (h : Event.compressData buf ∈ (DoCompressRun compressData payload).events) :
    buf = payload := by
  by_cases h0 : (compressData (CBytes payload)).errorCode = 0
  · by_cases hn : C_int (compressData (CBytes payload)).length < 0
    · rw [DoCompressRun_of_negative compressData payload h0 hn] at h
      simpa using h
    · rw [DoCompressRun_of_copy compressData payload h0 (by omega)] at h
      simpa using h
  · rw [DoCompressRun_of_errorCode compressData payload h0] at h
    simpa using h

/-- On every way out, `DoCompress` has freed the record and the copy of the payload and
nothing else: `output` is not among the pointers it frees. -/
theorem DoCompressRun_frees (compressData : List Byte → ForeignCallResult)
    (payload : List Byte) (q : Ptr)
    (h : Event.free q ∈ (DoCompressRun compressData payload).events) :
    q = .resultPtr ∨ q = .payloadPtr := by
  by_cases h0 : (compressData (CBytes payload)).errorCode = 0
  · by_cases hn : C_int (compressData (CBytes payload)).length < 0
    · rw [DoCompressRun_of_negative compressData payload h0 hn] at h
      simpa using h
    · rw [DoCompressRun_of_copy compressData payload h0 (by omega)] at h
      simpa using h
  · rw [DoCompressRun_of_errorCode compressData payload h0] at h
    simpa using h

/-- **C5** For every payload and every record the foreign call hands back, on every way out
of `DoCompress`: the pointer obtained from `C.CBytes` is freed exactly once, and the call of
the foreign routine comes before that free. -/
theorem DoCompress_frees_payloadPtr_once (compressData : List Byte → ForeignCallResult)
    (payload : List Byte) :
    (DoCompressRun compressData payload).events.count (.free .payloadPtr) = 1 ∧
    ∃ before, (DoCompressRun compressData payload).events = before ++ [.free .payloadPtr] ∧
      .CBytes payload.length ∈ before ∧ .compressData (CBytes payload) ∈ before ∧
      .free .payloadPtr ∉ before := by
  by_cases h : (compressData (CBytes payload)).errorCode = 0
  · by_cases hn : C_int (compressData (CBytes payload)).length < 0
    · rw [DoCompressRun_of_negative compressData payload h hn]
      exact ⟨by simp [List.count_cons],
        [.CBytes payload.length, .compressData payload, .free .resultPtr],
        by simp, by simp, by simp [CBytes], by simp⟩
    · rw [DoCompressRun_of_copy compressData payload h (by omega)]
      exact ⟨by simp [List.count_cons],
        [.CBytes payload.length, .compressData payload,
          .GoBytes (C_int (compressData (CBytes payload)).length).toNat, .free .resultPtr],
        by simp, by simp, by simp [CBytes], by simp⟩
  · rw [DoCompressRun_of_errorCode compressData payload h]
    exact ⟨by simp [List.count_cons],
      [.CBytes payload.length, .compressData payload, .free .resultPtr],
      by simp, by simp, by simp [CBytes], by simp⟩

/-- **C6** at a failing input: the foreign call succeeds with two bytes of output;
`DoCompress` copies them, then frees the record and the payload copy, and never frees
`output`. -/
theorem DoCompress_never_frees_output :
    DoCompress (returning ⟨bufferOf [120, 156], 2, 0⟩) [97] = .ok [120, 156] ∧
    (DoCompressRun (returning ⟨bufferOf [120, 156], 2, 0⟩) [97]).events =
      [.CBytes 1, .compressData [97], .GoBytes 2, .free .resultPtr, .free .payloadPtr] ∧
    (DoCompressRun (returning ⟨bufferOf [120, 156], 2, 0⟩) [97]).events.count
      (.free .output) = 0 := by
  refine ⟨rfl, by decide, by decide⟩

/-- **C7**, counterexample: the error codes 1 and 2 are distinct and nonzero, and the two
failures of `DoCompress` are the same value. -/
theorem DoCompress_failure_same_for_codes_1_2 :
    (1 : Int) ≠ 0 ∧ (2 : Int) ≠ 0 ∧ (1 : Int) ≠ 2 ∧
    DoCompress (returning ⟨bufferOf [], 0, 1⟩) [97] = .error (.str compressionFailed) ∧
    DoCompress (returning ⟨bufferOf [], 0, 2⟩) [97] = .error (.str compressionFailed) := by
  refine ⟨by decide, by decide, by decide, rfl, rfl⟩

/-- **C7**, amended: when the foreign call reports a nonzero error code, the failure of
`DoCompress` is the fixed message of its panic and does not carry the code: for any two
nonzero codes, whatever the payloads and the rest of the records, the two failures are
equal. -/
theorem DoCompress_failure_is_fixed (compressData₁ compressData₂ : List Byte → ForeignCallResult)
    (payload₁ payload₂ : List Byte)
    (h₁ : (compressData₁ (CBytes payload₁)).errorCode ≠ 0)
    (h₂ : (compressData₂ (CBytes payload₂)).errorCode ≠ 0) :
    DoCompress compressData₁ payload₁ = .error (.str "Ooh no, zlib compression failed!") ∧
    DoCompress compressData₁ payload₁ = DoCompress compressData₂ payload₂ := by
  simp [DoCompress, DoCompressRun_of_errorCode compressData₁ payload₁ h₁,
    DoCompressRun_of_errorCode compressData₂ payload₂ h₂, compressionFailed]

/-- The amended C7 at the codes 1 and -5. -/
theorem DoCompress_failure_is_fixed_witness :
    DoCompress (returning ⟨bufferOf [], 0, 1⟩) [97] =
      .error (.str "Ooh no, zlib compression failed!") ∧
    DoCompress (returning ⟨bufferOf [], 0, 1⟩) [97] =
      DoCompress (returning ⟨bufferOf [3], 1, -5⟩) [98, 99] :=
  DoCompress_failure_is_fixed (returning ⟨bufferOf [], 0, 1⟩) (returning ⟨bufferOf [3], 1, -5⟩)
    [97] [98, 99] (by decide) (by decide)

/-- What `DoCompress` returns when the foreign routine is the shim over `deflate`: the
compressed form of what the shim read, provided its length fits a signed 32-bit integer. -/
theorem DoCompress_shimCompressData (deflate : List Byte → List Byte)
    (beyond payload : List Byte)
    (hfit : (deflate ((payload ++ beyond).takeWhile (· ≠ 0))).length ≤ 2 ^ 31 - 1) :
    DoCompress (shimCompressData deflate beyond) payload =
      .ok (deflate ((payload ++ beyond).takeWhile (· ≠ 0))) := by
  have h0 : (shimCompressData deflate beyond (CBytes payload)).errorCode = 0 := rfl
  have hl : (shimCompressData deflate beyond (CBytes payload)).length =
      (deflate ((payload ++ beyond).takeWhile (· ≠ 0))).length := rfl
  have ho : (shimCompressData deflate beyond (CBytes payload)).output =
      bufferOf (deflate ((payload ++ beyond).takeWhile (· ≠ 0))) := rfl
  have hc := C_int_of_fits _ hfit
  have hn : 0 ≤ C_int (shimCompressData deflate beyond (CBytes payload)).length := by
    rw [hl, hc]; omega
  simp only [DoCompress, DoCompressRun_of_copy _ payload h0 hn, hl, ho, hc, Int.toNat_ofNat,
    map_bufferOf_range]

/-- **C8**, what the round trip gives: for a codec that loses nothing, a payload `p` without
zero byte and a C heap that holds the zero-free bytes `g` and then a zero byte behind the
copy of `p`, decompressing `DoCompress p` gives `p` followed by `g`, as long as the
compressed length fits a signed 32-bit integer; so it gives `p` only when `g` is empty. -/
theorem roundTrip_reads_beyond_payload (c : Codec) (p g rest : List Byte)
    (hc : ∀ x, c.inflate (c.deflate x) = some x)
    (hp : (0 : Byte) ∉ p) (hg : (0 : Byte) ∉ g)
    (hfit : (c.deflate (p ++ g)).length ≤ 2 ^ 31 - 1) :
    roundTrip c (g ++ 0 :: rest) p = some (p ++ g) ∧
    (g ≠ [] → roundTrip c (g ++ 0 :: rest) p ≠ some p) := by
  have hpg : (0 : Byte) ∉ p ++ g := by simp [hp, hg]
  have hread : (p ++ (g ++ 0 :: rest)).takeWhile (· ≠ 0) = p ++ g := by
    rw [← List.append_assoc]
    exact takeWhile_ne_zero_append (p ++ g) rest hpg
  have hrt : roundTrip c (g ++ 0 :: rest) p = some (p ++ g) := by
    unfold roundTrip
    rw [DoCompress_shimCompressData c.deflate (g ++ 0 :: rest) p (by rw [hread]; exact hfit),
      hread]
    exact hc (p ++ g)
  refine ⟨hrt, fun hne => ?_⟩
  rw [hrt]
  intro h
  apply hne
  have h2 : p ++ g = p ++ [] := by simpa using h
  exact List.append_cancel_left h2

/-- The statement of C8's theorem for the storing codec, the payload `a` and a heap that
holds `B` and a zero byte behind the copy: the round trip gives `aB`. -/
theorem roundTrip_reads_beyond_payload_witness :
    roundTrip storedCodec ([66] ++ 0 :: []) [97] = some ([97] ++ [66]) ∧
    (([66] : List Byte) ≠ [] → roundTrip storedCodec ([66] ++ 0 :: []) [97] ≠ some [97]) :=
  roundTrip_reads_beyond_payload storedCodec [97] [66] [] (fun _ => rfl) (by decide)
    (by decide) (by decide)

/-! ## The verification driver: `main` -/

/-- On the driver's own input the same happens: with a heap that holds `!` and a zero byte
behind the copy of `inputString`, the faithful decompressor returns the input followed by
`!`, and `main` panics on the comparison. -/
theorem main_with_nonzero_heap_byte :
    main (shimCompressData storedCodec.deflate [33, 0]) (fun c => ⟨none, c, none, none⟩) =
      ⟨"", some (.str stringsDiffer)⟩ := by
  have h : DoCompress (shimCompressData storedCodec.deflate [33, 0]) inputString =
      .ok (inputString ++ [33]) := by
    rw [DoCompress_shimCompressData storedCodec.deflate [33, 0] inputString]
    · have := takeWhile_ne_zero_append (inputString ++ [33]) [] (by
        simp only [List.mem_append, not_or]; exact ⟨by decide, by decide⟩)
      simpa [storedCodec] using this
    · have := takeWhile_ne_zero_append (inputString ++ [33]) [] (by
        simp only [List.mem_append, not_or]; exact ⟨by decide, by decide⟩)
      have h2 : (inputString ++ [33, 0]).takeWhile (· ≠ 0) = inputString ++ [33] := by
        simpa using this
      rw [h2]
      have h3 : inputString.length = 74 := by decide
      simp [storedCodec, h3]
  simp [main, ioCopy, h]

/-- **C9** at a failing input: the foreign call succeeds, the reader opens, `io.Copy` moves
the bytes of the input into the buffer and returns an error, `Close` returns an error;
`main` prints its confirmation line and returns. -/
theorem main_confirms_despite_read_error :
    main (returning ⟨bufferOf [120, 156, 1], 3, 0⟩)
      (fun _ => ⟨none, inputString, some "unexpected EOF", some "unexpected EOF"⟩) =
      ⟨confirmation, none⟩ := by
  have h : DoCompress (returning ⟨bufferOf [120, 156, 1], 3, 0⟩) inputString =
      .ok [120, 156, 1] := rfl
  simp [main, ioCopy, h]

/-- **C10** For every foreign routine and every decompressor: `main` prints the confirmation
line, or ends without a panic, only if the bytes the decompressor delivered are those of the
input string; whenever they differ from the input, `main` panics with the content-mismatch
message and prints nothing; and that message differs from the messages of the compression
and decompression failures. -/
theorem main_confirms_only_identical (compressData : List Byte → ForeignCallResult)
    (zlib : List Byte → ZlibRun) :
    ((main compressData zlib).stdout = confirmation ∨ (main compressData zlib).panic = none →
      ∃ compressedBytes, DoCompress compressData inputString = .ok compressedBytes ∧
        (zlib compressedBytes).newReaderErr = none ∧
        (zlib compressedBytes).copied = inputString) ∧
    (∀ compressedBytes, DoCompress compressData inputString = .ok compressedBytes →
      (zlib compressedBytes).newReaderErr = none →
      (zlib compressedBytes).copied ≠ inputString →
      main compressData zlib = ⟨"", some (.str stringsDiffer)⟩) ∧
    PanicValue.str stringsDiffer ≠ .str compressionFailed ∧
    PanicValue.str stringsDiffer ≠ .str newReaderFailed := by
  have hstr : ("" : String) ≠ confirmation := by decide
  refine ⟨?_, ?_, by decide, by decide⟩
  · intro hmain
    cases h : DoCompress compressData inputString with
    | error e =>
      simp only [main, h] at hmain
      rcases hmain with hmain | hmain
      · exact absurd hmain hstr
      · exact absurd hmain (by simp)
    | ok compressedBytes =>
      refine ⟨compressedBytes, rfl, ?_⟩
      cases hr : (zlib compressedBytes).newReaderErr with
      | some err =>
        simp only [main, h, hr] at hmain
        rcases hmain with hmain | hmain
        · exact absurd hmain hstr
        · exact absurd hmain (by simp)
      | none =>
        refine ⟨rfl, ?_⟩
        by_contra hne
        have hne2 : inputString ≠ (zlib compressedBytes).copied := fun e => hne e.symm
        simp only [main, ioCopy, h, hr, hne2, ne_eq, not_false_eq_true, if_true] at hmain
        rcases hmain with hmain | hmain
        · exact absurd hmain hstr
        · exact absurd hmain (by simp)
  · intro compressedBytes h hr hne
    have hne2 : inputString ≠ (zlib compressedBytes).copied := fun e => hne e.symm
    simp [main, ioCopy, h, hr, hne2]

set_option maxRecDepth 8000 in
/-- The statement of C10 at a decompressor that delivers the input, where `main` ends
without a panic, and at one that delivers nothing, where it panics on the comparison. -/
theorem main_confirms_only_identical_witness :
    (∃ compressedBytes,
      DoCompress (returning ⟨bufferOf [120, 156, 1], 3, 0⟩) inputString = .ok compressedBytes ∧
      ((fun _ => ⟨none, inputString, none, none⟩ : List Byte → ZlibRun)
        compressedBytes).newReaderErr = none ∧
      ((fun _ => ⟨none, inputString, none, none⟩ : List Byte → ZlibRun)
        compressedBytes).copied = inputString) ∧
    main (returning ⟨bufferOf [120, 156, 1], 3, 0⟩) (fun _ => ⟨none, [], none, none⟩) =
      ⟨"", some (.str stringsDiffer)⟩ :=
  ⟨(main_confirms_only_identical (returning ⟨bufferOf [120, 156, 1], 3, 0⟩)
      (fun _ => ⟨none, inputString, none, none⟩)).1 (Or.inr (by rfl)),
    (main_confirms_only_identical (returning ⟨bufferOf [120, 156, 1], 3, 0⟩)
      (fun _ => ⟨none, [], none, none⟩)).2.1 [120, 156, 1] rfl rfl (by decide)⟩

end CgoStatic
